import Mathlib

/-
Verification of the parseq coordination library (src/parseq.js) against its
specification.  The library is shallowly embedded: JavaScript values flowing
through the library are modelled by the inductive type `JV`; the shared
scheduling core `run` is modelled as an event-driven state machine over
`Config`, whose transitions (`startReq`, `deliver`, `timerFire`) are direct
transcriptions of `start_requestor`, `start_requestor_callback` and the timer
path; each combinator's action/timeout closure is a pure function from its
captured local state to a new state plus a list of effects (`Eff`), which the
machine interprets exactly as the JavaScript statements execute (calling the
caller's callback after the `callback` variable has been cleared to
`undefined` is a TypeError, recorded as `crashed`).  Requestor callbacks are
assumed to fire asynchronously (as events), matching the library's contract.
JavaScript sparse arrays (`results`) are modelled as lists of `Option JV`
with `none` for holes/`undefined` entries; array access semantics agree on
every index that the code reads.
-/

namespace Parseq

/-- JavaScript values as they flow through parseq: opaque numbers and strings,
function values (characterised by their arity, which is all the validation
code inspects), error report objects built by `make_error`, arrays with
possible holes, and plain objects. -/
inductive JV : Type where
  | num (n : Nat)
  | str (s : String)
  | fnv (arity : Nat)
  | err (factory : String) (reason : Option String) (evidence : Option JV)
  | arr (elems : List (Option JV))
  | obj (entries : List (String × JV))

/-- Transcribes `make_error(factory_name, reason, evidence)`: an error report
object carrying the factory name, an optional reason and optional evidence. -/
def make_error (factory_name : String) (reason : Option String)
    (evidence : Option JV) : JV :=
  JV.err factory_name reason evidence

/-- The behaviour of one caller-supplied requestor: either it raises a value
synchronously when launched (`throws = some e`), or it returns a cancel
handle (or not) and eventually fires its callback once with the
(success, error) pair computed by `reply` from the input value it
received. -/
structure RBeh : Type where
  throws : Option JV
  hasCancel : Bool
  reply : Option JV → Option JV × Option JV

/-- One observable statement executed by a combinator's action/timeout
closure: a call to the coordinator's `cancel` (with an optional reason
argument; `none` means the argument was `undefined`, selecting the default
reason), a call to the caller's `callback`, or the assignment
`callback = undefined`. -/
inductive Eff : Type where
  | cancel (reason : Option JV)
  | call (success : Option JV) (error : Option JV)
  | clearCb

/-- The coordinator state created by one invocation of `run`, together with
the combinator-local `callback` variable and the observation logs.
`live` models `cancel_array !== undefined`; `slots i` models whether
`cancel_array[i]` currently holds a function; `used i` models the callback
closure's `number` variable having been cleared to `undefined`;
`cursor` is `next_number`; `tokens` counts the queued
`setTimeout(start_requestor, 0, initial_value)` calls not yet executed;
`launchedVals i` records the value requestor `i` was invoked with (outer
`none` = not launched); `canceledLog` records invocations of sub-requestor
cancel handles with their reasons; `calls` records invocations of the
caller's callback; `crashed` records a TypeError from calling the cleared
`callback` variable. -/
structure Config (σ : Type) : Type where
  comb : σ
  callbackDefined : Bool
  live : Bool
  slots : List Bool
  used : List Bool
  cursor : Nat
  tokens : Nat
  timer : Bool
  launchedVals : List (Option (Option JV))
  canceledLog : List (Nat × JV)
  calls : List (Option JV × Option JV)
  crashed : Bool

/-- The immutable data of one coordinator: the factory name (used for the
default cancel reason and for the `factory_name === "sequence"` test), the
requestor behaviours, the initial value, the combinator's action closure
(receiving its local state, the current definedness of `callback`, the
success and error arguments, and the requestor number) and its timeout
closure. -/
structure Env (σ : Type) : Type where
  name : String
  behs : List RBeh
  initial : Option JV
  action : σ → Bool → Option JV → Option JV → Nat → σ × List Eff
  timeoutF : σ → σ × List Eff

/-- Indices whose cancel slot currently holds a function, in index order
(the order `cancel_array.forEach` visits them). -/
def activeIndices (slots : List Bool) : List Nat :=
  (List.range slots.length).filter (fun i => slots.getD i false)

/-- Interprets one effect, mirroring `cancel`, `callback(...)` and
`callback = undefined`.  `cancel` always clears the timer, and if the
coordinator is still live it invokes every still-active cancel handle with
the supplied reason (the default reason when the argument was `undefined`)
and marks the coordinator dead.  Calling the callback after it was cleared
is a TypeError: `crashed` is set and every later statement is skipped. -/
def applyEff {σ : Type} (name : String) (cfg : Config σ) (e : Eff) : Config σ :=
  if cfg.crashed then cfg else
  match e with
  | .cancel r =>
      let cfg1 := { cfg with timer := false }
      if cfg1.live then
        let reason := r.getD (make_error name (some "Cancel.") none)
        { cfg1 with
            live := false
            canceledLog :=
              cfg1.canceledLog ++ (activeIndices cfg1.slots).map (fun i => (i, reason)) }
      else cfg1
  | .call s e2 =>
      if cfg.callbackDefined then { cfg with calls := cfg.calls ++ [(s, e2)] }
      else { cfg with crashed := true }
  | .clearCb => { cfg with callbackDefined := false }

/-- Interprets the effect list of one action/timeout invocation in order. -/
def applyEffs {σ : Type} (name : String) (cfg : Config σ) (effs : List Eff) : Config σ :=
  effs.foldl (applyEff name) cfg

/-- Transcribes `start_requestor(value)`: if the coordinator is live and the
cursor has not exhausted the requestor array, claim the next number, invoke
that requestor with the value, and either record its cancel handle, or — if
it raised synchronously — run the action with `(undefined, exception,
number)`, clear `number`, and immediately attempt the next launch with the
same value (the `catch` block).  The fuel argument bounds the chain of
consecutive synchronous throws; `env.behs.length + 1` always suffices since
the cursor strictly increases. -/
def startReq {σ : Type} (env : Env σ) : Nat → Config σ → Option JV → Config σ
  | 0, cfg, _ => cfg
  | fuel + 1, cfg, value =>
      if cfg.crashed then cfg else
      if cfg.live then
        match env.behs.get? cfg.cursor with
        | none => cfg
        | some beh =>
            let number := cfg.cursor
            let cfg1 := { cfg with
                cursor := number + 1
                launchedVals := cfg.launchedVals.set number (some value) }
            match beh.throws with
            | some exception =>
                let a := env.action cfg1.comb cfg1.callbackDefined none (some exception) number
                let cfg2 := applyEffs env.name { cfg1 with comb := a.1 } a.2
                if cfg2.crashed then cfg2
                else startReq env fuel { cfg2 with used := cfg2.used.set number true } value
            | none =>
                { cfg1 with slots := cfg1.slots.set number beh.hasCancel }
      else cfg

/-- Transcribes requestor `k` firing its callback (the body of
`start_requestor_callback`): only possible if `k` was launched and did not
throw; ignored unless the coordinator is live and this callback has not been
used (`number !== undefined`).  On a valid first firing: clear slot `k`, run
the action with the reported (success, error), clear `number`, then attempt
one more launch — threading the success value when the factory is
`"sequence"`, re-supplying the initial value otherwise. -/
def deliver {σ : Type} (env : Env σ) (k : Nat) (cfg : Config σ) : Config σ :=
  if cfg.crashed then cfg else
  match env.behs.get? k, cfg.launchedVals.getD k none with
  | some beh, some value =>
      match beh.throws with
      | some _ => cfg
      | none =>
      if cfg.live && !(cfg.used.getD k true) then
        let sr := beh.reply value
        let cfg1 := { cfg with slots := cfg.slots.set k false }
        let a := env.action cfg1.comb cfg1.callbackDefined sr.1 sr.2 k
        let cfg2 := applyEffs env.name { cfg1 with comb := a.1 } a.2
        if cfg2.crashed then cfg2
        else startReq env (env.behs.length + 1) { cfg2 with used := cfg2.used.set k true }
              (if env.name = "sequence" then sr.1 else env.initial)
      else cfg
  | _, _ => cfg

/-- Transcribes the one-shot timer firing: if armed, disarm it and run the
combinator's timeout closure. -/
def timerFire {σ : Type} (env : Env σ) (cfg : Config σ) : Config σ :=
  if cfg.crashed then cfg else
  if cfg.timer then
    let cfg1 := { cfg with timer := false }
    let a := env.timeoutF cfg1.comb
    applyEffs env.name { cfg1 with comb := a.1 } a.2
  else cfg

/-- Transcribes one queued `setTimeout(start_requestor, 0, initial_value)`
call executing. -/
def startEv {σ : Type} (env : Env σ) (cfg : Config σ) : Config σ :=
  if cfg.tokens = 0 then cfg
  else startReq env (env.behs.length + 1) { cfg with tokens := cfg.tokens - 1 } env.initial

/-- The events the event loop can hand the coordinator: a queued initial
launch executing, requestor `k` firing its callback, or the timer firing. -/
inductive Ev : Type where
  | start
  | reply (k : Nat)
  | timer

/-- Dispatches one event. -/
def step {σ : Type} (env : Env σ) (cfg : Config σ) : Ev → Config σ
  | .start => startEv env cfg
  | .reply k => deliver env k cfg
  | .timer => timerFire env cfg

/-- Runs a schedule of events from a configuration. -/
def runSched {σ : Type} (env : Env σ) (sched : List Ev) (cfg : Config σ) : Config σ :=
  sched.foldl (step env) cfg

/-- The coordinator state `run` creates: `min(throttle, count)` queued
initial launches, a timer armed exactly when the time budget is a number
greater than zero, nothing launched, nothing cancelled. -/
def initConfig {σ : Type} (s0 : σ) (n : Nat) (throttle : Nat)
    (milliseconds : Option Nat) : Config σ :=
  { comb := s0
    callbackDefined := true
    live := true
    slots := List.replicate n false
    used := List.replicate n false
    cursor := 0
    tokens := min throttle n
    timer := match milliseconds with | some m => decide (0 < m) | none => false
    launchedVals := List.replicate n none
    canceledLog := []
    calls := []
    crashed := false }

/-- Local state of a `fallback_requestor` invocation. -/
structure FState : Type where
  number_pending : Int

/-- Transcribes `fallback_action`: decrement the pending count; on a success,
cancel the rest, report the success and clear the callback; then — with no
guard — if the pending count dropped below one, cancel with the error,
report the error and clear the callback. -/
def fallback_action (s : FState) (success error : Option JV) : FState × List Eff :=
  let number_pending := s.number_pending - 1
  (⟨number_pending⟩,
    (if success.isSome then [Eff.cancel none, Eff.call success none, Eff.clearCb] else [])
      ++ (if number_pending < 1 then
            [Eff.cancel error, Eff.call none error, Eff.clearCb]
          else []))

/-- Transcribes `fallback_timeout`. -/
def fallback_timeout (milliseconds : Option Nat) (s : FState) : FState × List Eff :=
  let error := make_error "fallback" (some "Timeout.") (milliseconds.map JV.num)
  (s, [Eff.cancel (some error), Eff.call none (some error), Eff.clearCb])

/-- The coordinator environment `fallback_requestor` sets up. -/
def fallbackEnv (behs : List RBeh) (initial : Option JV)
    (milliseconds : Option Nat) : Env FState :=
  { name := "fallback", behs := behs, initial := initial
    action := fun s _cb success error _n => fallback_action s success error
    timeoutF := fallback_timeout milliseconds }

/-- A full `fallback` run: the initial state `run` creates (throttle 1),
driven by a schedule of events. -/
def fallback_run (behs : List RBeh) (initial : Option JV)
    (milliseconds : Option Nat) (sched : List Ev) : Config FState :=
  runSched (fallbackEnv behs initial milliseconds) sched
    (initConfig ⟨(behs.length : Int)⟩ behs.length 1 milliseconds)

/-- Local state of a `race_requestor` invocation. -/
structure RState : Type where
  number_pending : Int

/-- Transcribes `race_action`: decrement the pending count; on a success,
cancel the losers (reason `"Loser."` with the winner's number as evidence),
report the success and clear the callback; then — with no guard — if the
pending count dropped below one, cancel with the error, report the error and
clear the callback. -/
def race_action (s : RState) (success error : Option JV) (number : Nat) :
    RState × List Eff :=
  let number_pending := s.number_pending - 1
  (⟨number_pending⟩,
    (if success.isSome then
        [Eff.cancel (some (make_error "race" (some "Loser.") (some (JV.num number)))),
          Eff.call success none, Eff.clearCb]
      else [])
      ++ (if number_pending < 1 then
            [Eff.cancel error, Eff.call none error, Eff.clearCb]
          else []))

/-- Transcribes `race_timeout`. -/
def race_timeout (milliseconds : Option Nat) (s : RState) : RState × List Eff :=
  let error := make_error "race" (some "Timeout.") (milliseconds.map JV.num)
  (s, [Eff.cancel (some error), Eff.call none (some error), Eff.clearCb])

/-- The coordinator environment `race_requestor` sets up. -/
def raceEnv (behs : List RBeh) (initial : Option JV)
    (milliseconds : Option Nat) : Env RState :=
  { name := "race", behs := behs, initial := initial
    action := fun s _cb success error number => race_action s success error number
    timeoutF := race_timeout milliseconds }

/-- A full `race` run; an absent throttle defaults to the requestor count. -/
def race_run (behs : List RBeh) (initial : Option JV) (milliseconds : Option Nat)
    (throttle : Option Nat) (sched : List Ev) : Config RState :=
  runSched (raceEnv behs initial milliseconds) sched
    (initConfig ⟨(behs.length : Int)⟩ behs.length (throttle.getD behs.length)
      milliseconds)

/-- Local state of a `sequence_requestor` invocation. -/
structure SState : Type where
  number_pending : Int

/-- Transcribes `sequence_action`: a no-op when `callback` has been cleared;
otherwise decrement the pending count; on a failure, cancel with the error,
report the error and clear the callback; then — with no further guard — if
the pending count dropped below one, cancel, report the success and clear
the callback. -/
def sequence_action (s : SState) (callbackDefined : Bool)
    (success error : Option JV) : SState × List Eff :=
  if callbackDefined then
    let number_pending := s.number_pending - 1
    (⟨number_pending⟩,
      (if success.isNone then [Eff.cancel error, Eff.call none error, Eff.clearCb] else [])
        ++ (if number_pending < 1 then
              [Eff.cancel none, Eff.call success none, Eff.clearCb]
            else []))
  else (s, [])

/-- Transcribes `sequence_timeout`. -/
def sequence_timeout (milliseconds : Option Nat) (s : SState) : SState × List Eff :=
  let error := make_error "sequence" (some "Timeout.") (milliseconds.map JV.num)
  (s, [Eff.cancel (some error), Eff.call none (some error), Eff.clearCb])

/-- The coordinator environment `sequence_requestor` sets up. -/
def sequenceEnv (behs : List RBeh) (initial : Option JV)
    (milliseconds : Option Nat) : Env SState :=
  { name := "sequence", behs := behs, initial := initial
    action := fun s cb success error _n => sequence_action s cb success error
    timeoutF := sequence_timeout milliseconds }

/-- A full `sequence` run (throttle 1). -/
def sequence_run (behs : List RBeh) (initial : Option JV)
    (milliseconds : Option Nat) (sched : List Ev) : Config SState :=
  runSched (sequenceEnv behs initial milliseconds) sched
    (initConfig ⟨(behs.length : Int)⟩ behs.length 1 milliseconds)

/-- Local state of a `parallel_requestor` invocation.  `results` models the
sparse JavaScript `results` array (`none` = hole/`undefined`); `option` is
the captured tri-state completion option, which `parallel_timeout` may
overwrite. -/
structure PState : Type where
  number_pending : Int
  number_pending_required_array : Int
  results : List (Option JV)
  option : Option Bool

/-- The unguarded tail of `parallel_action`: if everything has been
processed, or the requireds are all done and there is no option, cancel the
unfinished optionals with the `"Optional."` reason, report the results array
as the success and clear the callback. -/
def parallel_finish (s : PState) : PState × List Eff :=
  if s.number_pending < 1 ∨ (s.option = none ∧ s.number_pending_required_array < 1) then
    (s, [Eff.cancel (some (make_error "parallel" (some "Optional.") none)),
      Eff.call (some (JV.arr s.results)) none, Eff.clearCb])
  else (s, [])

/-- Transcribes `parallel_action`: record the success into the results array
and decrement the pending count; if the requestor was a required one,
decrement the required pending count and — on a failure — cancel everything
with the error, report the error, clear the callback and return; otherwise
fall through to `parallel_finish`. -/
def parallel_action (number_required : Nat) (s : PState)
    (success error : Option JV) (number : Nat) : PState × List Eff :=
  let results := s.results.set number success
  let number_pending := s.number_pending - 1
  if number < number_required then
    let number_pending_required_array := s.number_pending_required_array - 1
    if success.isNone then
      ({ number_pending := number_pending
         number_pending_required_array := number_pending_required_array
         results := results, option := s.option },
        [Eff.cancel error, Eff.call none error, Eff.clearCb])
    else
      parallel_finish
        { number_pending := number_pending
          number_pending_required_array := number_pending_required_array
          results := results, option := s.option }
  else
    parallel_finish { s with results := results, number_pending := number_pending }

/-- Transcribes `parallel_timeout`: under the `false` option, clear the
option to `undefined`; if the requireds are already done, cancel with the
timeout reason and report the results (the code does not clear the callback
here), otherwise do nothing further — in particular it cancels nothing.
Under any other option, cancel everything with the timeout reason, report
the results as success exactly when the requireds are all done and the
timeout reason as the error otherwise, and clear the callback. -/
def parallel_timeout (milliseconds : Option Nat) (s : PState) : PState × List Eff :=
  let reason := make_error "parallel" (some "Timeout.") (milliseconds.map JV.num)
  if s.option = some false then
    let s2 := { s with option := none }
    if s2.number_pending_required_array < 1 then
      (s2, [Eff.cancel (some reason), Eff.call (some (JV.arr s2.results)) none])
    else (s2, [])
  else
    if s.number_pending_required_array < 1 then
      (s, [Eff.cancel (some reason), Eff.call (some (JV.arr s.results)) none, Eff.clearCb])
    else
      (s, [Eff.cancel (some reason), Eff.call none (some reason), Eff.clearCb])

/-- The coordinator environment `parallel_requestor` sets up. -/
def parallelEnv (number_required : Nat) (behs : List RBeh) (initial : Option JV)
    (milliseconds : Option Nat) : Env PState :=
  { name := "parallel", behs := behs, initial := initial
    action := fun s _cb success error number =>
      parallel_action number_required s success error number
    timeoutF := parallel_timeout milliseconds }

/-- The local state a `parallel_requestor` invocation starts with. -/
def parallel_init (number_required : Nat) (n : Nat) (option : Option Bool) : PState :=
  { number_pending := (n : Int)
    number_pending_required_array := (number_required : Int)
    results := List.replicate n none
    option := option }

/-- A full `parallel` run over the concatenated requestor list (requireds
first); an absent throttle defaults to the requestor count. -/
def parallel_run (number_required : Nat) (option : Option Bool) (behs : List RBeh)
    (initial : Option JV) (milliseconds : Option Nat) (throttle : Option Nat)
    (sched : List Ev) : Config PState :=
  runSched (parallelEnv number_required behs initial milliseconds) sched
    (initConfig (parallel_init number_required behs.length option) behs.length
      (throttle.getD behs.length) milliseconds)

/-- Transcribes the requestor-shape check: a requestor is a function taking
one or two arguments. -/
def is_requestor : JV → Bool
  | .fnv arity => decide (1 ≤ arity) && decide (arity ≤ 2)
  | _ => false

/-- Transcribes `check_requestor_array`: throws unless the value is an array
of at least one element, all of which are requestors.  `none` models a value
that is not an array (`undefined`). -/
def check_requestor_array (requestor_array : Option (List JV))
    (factory_name : String) : Except JV Unit :=
  match requestor_array with
  | none => .error (make_error factory_name (some "Bad requestors array.") none)
  | some l =>
      if l.length < 1 || l.any (fun r => !is_requestor r) then
        .error (make_error factory_name (some "Bad requestors array.")
          (some (JV.arr (l.map some))))
      else .ok ()

/-- The value of the `option` parameter at the factory boundary: `undefined`,
a boolean, or some other defined value. -/
inductive JSOpt : Type where
  | undef
  | boolean (b : Bool)
  | other (v : JV)

/-- What the closure returned by the `parallel` factory captures: the
concatenated requestor array, the number of required requestors, the time
budget, the throttle, and the post-validation tri-state option. -/
structure PPlan : Type where
  requestor_array : List JV
  number_required : Nat
  milliseconds : Option Nat
  throttle : Option Nat
  option : Option Bool

/-- Transcribes the `parallel` factory's construction-time logic (the four
cases over empty/missing `required_array` and `optional_array`, the
`Bad option.` check — reached only when both arrays are non-empty — and the
final `check_requestor_array`).  The match on `option` merges the code's
`typeof option !== "boolean"` throw with the retention of a validated
option. -/
def parallel (required_array optional_array : Option (List JV))
    (milliseconds : Option Nat) (throttle : Option Nat) (option : JSOpt) :
    Except JV PPlan :=
  let finish := fun (requestor_array : List JV) (number_required : Nat)
      (opt : Option Bool) =>
    match check_requestor_array (some requestor_array) "parallel" with
    | .error e => Except.error e
    | .ok _ => Except.ok
        { requestor_array := requestor_array, number_required := number_required
          milliseconds := milliseconds, throttle := throttle, option := opt }
  if required_array.isNone || (required_array.getD []).isEmpty then
    if optional_array.isNone || (optional_array.getD []).isEmpty then
      .error (make_error "parallel" (some "Missing requestor array.")
        (required_array.map (fun l => JV.arr (l.map some))))
    else
      finish (optional_array.getD []) 0 (some true)
  else
    let number_required := (required_array.getD []).length
    if optional_array.isNone || (optional_array.getD []).isEmpty then
      finish (required_array.getD []) number_required none
    else
      let requestor_array := required_array.getD [] ++ optional_array.getD []
      match option with
      | .other v => .error (make_error "parallel" (some "Bad option.") (some v))
      | .undef => finish requestor_array number_required none
      | .boolean b => finish requestor_array number_required (some b)

/-- Transcribes the `required_object` harvesting pass of `parallel_object`:
collect, in key order, the names and values of entries whose value is a
function of arity 1 or 2. -/
def po_required_pass : List (String × JV) → List String × List JV
  | [] => ([], [])
  | (name, requestor) :: rest =>
      let tail := po_required_pass rest
      match requestor with
      | .fnv arity =>
          if arity = 1 ∨ arity = 2 then (name :: tail.1, requestor :: tail.2)
          else tail
      | _ => tail

/-- Transcribes the `optional_object` harvesting pass of `parallel_object`:
same filter, but an entry whose name is also defined in `required_object`
throws `Duplicate name.`. -/
def po_optional_pass (required_object : Option (List (String × JV))) :
    List (String × JV) → Except JV (List String × List JV)
  | [] => .ok ([], [])
  | (name, requestor) :: rest =>
      match requestor with
      | .fnv arity =>
          if arity = 1 ∨ arity = 2 then
            if required_object.isSome
                && ((required_object.getD []).lookup name).isSome then
              .error (make_error "parallel_object" (some "Duplicate name.")
                (some (JV.str name)))
            else
              match po_optional_pass required_object rest with
              | .error e => .error e
              | .ok tail => .ok (name :: tail.1, requestor :: tail.2)
          else po_optional_pass required_object rest
      | _ => po_optional_pass required_object rest

/-- What the `parallel_object` factory evaluates to when it does not throw:
either the composed requestor (the harvested names plus the plan of the
underlying `parallel` requestor), or — on the `No requestors.` path — the
error report object that the code `return`s instead of throwing. -/
inductive POResult : Type where
  | requestor (names : List String) (plan : PPlan)
  | errValue (e : JV)

/-- Transcribes the `parallel_object` factory: harvest both objects (the
optional pass may throw `Duplicate name.`), `return` — not throw — the
`No requestors.` error report when nothing was harvested, and otherwise
delegate to the `parallel` factory.  Objects are modelled as association
lists in key-enumeration order; `none` models an `undefined` argument. -/
def parallel_object (required_object optional_object : Option (List (String × JV)))
    (milliseconds : Option Nat) (throttle : Option Nat) (option : JSOpt) :
    Except JV POResult :=
  let rp := po_required_pass (required_object.getD [])
  match po_optional_pass required_object (optional_object.getD []) with
  | .error e => .error e
  | .ok op =>
      let names := rp.1 ++ op.1
      let required_array := rp.2
      let optional_array := op.2
      if names.length = 0 then
        .ok (.errValue (make_error "parallel_object" (some "No requestors.")
          (required_object.map (fun l => JV.obj l))))
      else
        match parallel (some required_array) (some optional_array) milliseconds
            throttle option with
        | .error e => .error e
        | .ok plan => .ok (.requestor names plan)

/-- A requestor that eventually reports the success `v` (no cancel handle). -/
def replyOk (v : JV) : RBeh := ⟨none, false, fun _ => (some v, none)⟩

/-- A requestor that eventually reports the failure `e` (no cancel handle). -/
def replyFail (e : JV) : RBeh := ⟨none, false, fun _ => (none, some e)⟩

/-- A requestor that returns a cancel handle and eventually reports the
success `v`. -/
def replyOkHandle (v : JV) : RBeh := ⟨none, true, fun _ => (some v, none)⟩

/-- C1: the claim fails on the code.  In a `fallback` run over a single
requestor whose one completion is a success, `fallback_action` takes both of
its unguarded branches: it calls the caller's callback with the success,
clears the `callback` variable to `undefined`, and then — because
`number_pending` has reached zero — calls the cleared variable again, a
TypeError (`crashed`).  The callback is thus not invoked exactly once and
the cleared callback variable is called on this path.  (The same unguarded
two-branch pattern crashes `race` when the last pending requestor succeeds
and `sequence` when its last requestor fails.) -/
theorem fallback_last_success_calls_cleared_callback :
    (fallback_run [replyOk (.num 42)] none none [.start, .reply 0]).crashed = true
      ∧ (fallback_run [replyOk (.num 42)] none none [.start, .reply 0]).calls
          = [(some (.num 42), none)]
      ∧ (sequence_run [replyFail (.num 9)] none none [.start, .reply 0]).crashed = true
      ∧ (race_run [replyFail (.num 1), replyOk (.num 2)] none none none
          [.start, .start, .reply 0, .reply 1]).crashed = true :=
  ⟨rfl, rfl, rfl, rfl⟩

/-- C3: the claim fails on the code.  When no entry of either mapping
survives the arity filter, `parallel_object` `return`s the
`"No requestors."` error report object as the factory's value instead of
throwing it (every sibling validation in the file throws, and the spec
requires a thrown failure).  The underlying `parallel` factory is indeed
never invoked: the evaluation yields the `errValue` result, not `parallel`'s
own `"Missing requestor array."` exception. -/
theorem parallel_object_returns_no_requestors_error :
    parallel_object (some [("a", JV.num 7)]) none none none .undef
      = .ok (.errValue (make_error "parallel_object" (some "No requestors.")
          (some (.obj [("a", JV.num 7)]))))
      ∧ parallel none (some []) none none .undef
          = .error (make_error "parallel" (some "Missing requestor array.") none) :=
  ⟨rfl, rfl⟩

/-- C7 counterexample: with only the required array supplied (non-empty) and
a defined non-boolean option, the `parallel` factory does not throw — it
succeeds and silently discards the option — refuting the claim's "for all
combinations of non-empty/empty required and optional arrays". -/
theorem parallel_bad_option_single_array_no_throw :
    parallel (some [JV.fnv 1]) none none none (.other (.num 0))
      = .ok ⟨[JV.fnv 1], 1, none, none, none⟩ :=
  rfl

/-- C7 (amended): only when both the required and the optional arrays are
supplied non-empty does a defined non-boolean option make construction fail
synchronously with the thrown `"Bad option."` configuration error. -/
theorem parallel_bad_option_both_arrays_throws (ra oa : List JV)
    (ms thr : Option Nat) (v : JV) (hra : ra ≠ []) (hoa : oa ≠ []) :
    parallel (some ra) (some oa) ms thr (.other v)
      = .error (make_error "parallel" (some "Bad option.") (some v)) := by
  match ra, hra with
  | a :: ra2, _ =>
    match oa, hoa with
    | b :: oa2, _ => simp [parallel]

/-- Witness for `parallel_bad_option_both_arrays_throws` at concrete
arrays. -/
theorem parallel_bad_option_both_arrays_throws_witness :
    ([JV.fnv 1] ≠ ([] : List JV)) ∧ ([JV.fnv 2] ≠ ([] : List JV))
      ∧ parallel (some [JV.fnv 1]) (some [JV.fnv 2]) none none (.other (.num 0))
          = .error (make_error "parallel" (some "Bad option.") (some (.num 0))) :=
  ⟨by simp, by simp,
    parallel_bad_option_both_arrays_throws [JV.fnv 1] [JV.fnv 2] none none (.num 0)
      (by simp) (by simp)⟩

/-- A non-empty array all of whose elements are requestors passes
`check_requestor_array`. -/
lemma check_requestor_array_ok (l : List JV) (factory_name : String)
    (hne : l ≠ []) (h : l.any (fun r => !is_requestor r) = false) :
    check_requestor_array (some l) factory_name = .ok () := by
  have hlen : ¬ l.length < 1 := by
    cases l with
    | nil => exact absurd rfl hne
    | cons a as => simp
  simp [check_requestor_array, hlen, h]

/-- C10: when exactly one of the two requestor arrays is supplied non-empty
(the other `undefined` or empty), the `parallel` factory ignores the
caller's option entirely — any value, including a defined non-boolean one,
raises no error — and overwrites it: `true` when only the optional array is
present (so success requires every requestor to complete), `undefined`
(absent) when only the required array is present. -/
theorem parallel_single_array_overwrites_option (ra oa : List JV)
    (ms thr : Option Nat) (opt : JSOpt)
    (hra : ra.any (fun r => !is_requestor r) = false)
    (hoa : oa.any (fun r => !is_requestor r) = false) :
    (ra ≠ [] → parallel (some ra) none ms thr opt = .ok ⟨ra, ra.length, ms, thr, none⟩)
      ∧ (ra ≠ [] →
          parallel (some ra) (some []) ms thr opt = .ok ⟨ra, ra.length, ms, thr, none⟩)
      ∧ (oa ≠ [] → parallel none (some oa) ms thr opt = .ok ⟨oa, 0, ms, thr, some true⟩)
      ∧ (oa ≠ [] →
          parallel (some []) (some oa) ms thr opt = .ok ⟨oa, 0, ms, thr, some true⟩) := by
  refine ⟨fun h => ?_, fun h => ?_, fun h => ?_, fun h => ?_⟩
  · match ra, h, hra with
    | a :: ra2, _, hra =>
      simp [parallel, check_requestor_array_ok (a :: ra2) "parallel" (by simp) hra]
  · match ra, h, hra with
    | a :: ra2, _, hra =>
      simp [parallel, check_requestor_array_ok (a :: ra2) "parallel" (by simp) hra]
  · match oa, h, hoa with
    | b :: oa2, _, hoa =>
      simp [parallel, check_requestor_array_ok (b :: oa2) "parallel" (by simp) hoa]
  · match oa, h, hoa with
    | b :: oa2, _, hoa =>
      simp [parallel, check_requestor_array_ok (b :: oa2) "parallel" (by simp) hoa]

/-- Witness for `parallel_single_array_overwrites_option` at concrete
arrays and a non-boolean option. -/
theorem parallel_single_array_overwrites_option_witness :
    ([JV.fnv 1].any (fun r => !is_requestor r) = false)
      ∧ ([JV.fnv 2].any (fun r => !is_requestor r) = false)
      ∧ parallel (some [JV.fnv 1]) none none none (.other (.num 3))
          = .ok ⟨[JV.fnv 1], 1, none, none, none⟩
      ∧ parallel none (some [JV.fnv 2]) none none (.other (.num 3))
          = .ok ⟨[JV.fnv 2], 0, none, none, some true⟩ :=
  ⟨rfl, rfl,
    (parallel_single_array_overwrites_option [JV.fnv 1] [JV.fnv 2] none none
      (.other (.num 3)) rfl rfl).1 (by simp),
    (parallel_single_array_overwrites_option [JV.fnv 1] [JV.fnv 2] none none
      (.other (.num 3)) rfl rfl).2.2.1 (by simp)⟩

/-- C4: in any live parallel coordinator state, when a requestor at an index
below the number of required requestors reports a failure (success
`undefined`), the coordinator immediately cancels everything — the timer is
cleared, every still-active cancel handle is invoked with that failure's
error (the default reason when the error is `undefined`), the coordinator
goes dead so no further launches or routings occur — and the failure's error
is reported to the caller, regardless of the pending counts (outstanding or
succeeded optionals do not matter). -/
theorem parallel_required_failure_cancels_and_reports
    (number_required : Nat) (behs : List RBeh) (initial : Option JV)
    (ms : Option Nat) (cfg : Config PState) (k : Nat) (beh : RBeh)
    (v errv : Option JV)
    (hcr : cfg.crashed = false) (hlive : cfg.live = true)
    (hcb : cfg.callbackDefined = true)
    (hbeh : behs[k]? = some beh) (hth : beh.throws = none)
    (hl : cfg.launchedVals[k]?.getD none = some v)
    (hu : cfg.used[k]?.getD true = false)
    (hreply : beh.reply v = (none, errv))
    (hreq : k < number_required) :
    step (parallelEnv number_required behs initial ms) cfg (.reply k)
      = { cfg with
            comb := { number_pending := cfg.comb.number_pending - 1
                      number_pending_required_array :=
                        cfg.comb.number_pending_required_array - 1
                      results := cfg.comb.results.set k none
                      option := cfg.comb.option }
            slots := cfg.slots.set k false
            used := cfg.used.set k true
            timer := false
            live := false
            callbackDefined := false
            canceledLog := cfg.canceledLog
              ++ (activeIndices (cfg.slots.set k false)).map
                  (fun i => (i, errv.getD (make_error "parallel" (some "Cancel.") none)))
            calls := cfg.calls ++ [(none, errv)] } := by
  obtain ⟨comb, cb, live, slots, used, cursor, tokens, timer, lv, clog, calls0, crashed⟩ := cfg
  simp only at hcr hlive hcb hl hu
  subst hcr hlive hcb
  simp [step, deliver, parallelEnv, hbeh, hth, hl, hu, hreply, parallel_action,
    hreq, parallel_finish, applyEffs, applyEff, startReq]

/-- Witness for `parallel_required_failure_cancels_and_reports`: required
requestor 0 fails with 9 while optional requestor 1 (holding an active
cancel handle) is outstanding; the handle is invoked with the error and the
caller receives the failure. -/
theorem parallel_required_failure_cancels_and_reports_witness :
    (0 : Nat) < 1
      ∧ step (parallelEnv 1 [replyFail (.num 9), replyOkHandle (.num 5)] none none)
          ⟨⟨2, 1, [none, none], none⟩, true, true, [false, true], [false, false], 2, 0,
            false, [some none, some none], [], [], false⟩ (.reply 0)
        = ⟨⟨1, 0, [none, none], none⟩, false, false, [false, true], [true, false], 2, 0,
            false, [some none, some none], [(1, .num 9)], [(none, some (.num 9))],
            false⟩ :=
  ⟨by decide,
    Eq.trans
      (parallel_required_failure_cancels_and_reports 1
        [replyFail (.num 9), replyOkHandle (.num 5)] none none
        ⟨⟨2, 1, [none, none], none⟩, true, true, [false, true], [false, false], 2, 0,
          false, [some none, some none], [], [], false⟩
        0 (replyFail (.num 9)) none (some (.num 9)) rfl rfl rfl rfl rfl rfl rfl rfl
        (by decide))
      rfl⟩

/-- C5: in any live parallel coordinator state with an absent option, as
soon as the last pending required requestor reports a success the
coordinator finalizes in that very routing: every still-pending requestor's
cancel handle is invoked with the distinguishable `"Optional."` reason, the
coordinator goes dead, and the caller receives as its success the results
array holding exactly the values that have arrived so far (this success
included); indices of uncompleted optionals stay empty (`none`). -/
theorem parallel_absent_option_last_required_success_finalizes
    (number_required : Nat) (behs : List RBeh) (initial : Option JV)
    (ms : Option Nat) (cfg : Config PState) (k : Nat) (beh : RBeh)
    (v : Option JV) (s : JV)
    (hcr : cfg.crashed = false) (hlive : cfg.live = true)
    (hcb : cfg.callbackDefined = true)
    (hbeh : behs[k]? = some beh) (hth : beh.throws = none)
    (hl : cfg.launchedVals[k]?.getD none = some v)
    (hu : cfg.used[k]?.getD true = false)
    (hreply : beh.reply v = (some s, none))
    (hreq : k < number_required)
    (hopt : cfg.comb.option = none)
    (hnpr : cfg.comb.number_pending_required_array = 1) :
    step (parallelEnv number_required behs initial ms) cfg (.reply k)
      = { cfg with
            comb := { number_pending := cfg.comb.number_pending - 1
                      number_pending_required_array := 0
                      results := cfg.comb.results.set k (some s)
                      option := none }
            slots := cfg.slots.set k false
            used := cfg.used.set k true
            timer := false
            live := false
            callbackDefined := false
            canceledLog := cfg.canceledLog
              ++ (activeIndices (cfg.slots.set k false)).map
                  (fun i => (i, make_error "parallel" (some "Optional.") none))
            calls := cfg.calls
              ++ [(some (JV.arr (cfg.comb.results.set k (some s))), none)] } := by
  obtain ⟨comb, cb, live, slots, used, cursor, tokens, timer, lv, clog, calls0, crashed⟩ := cfg
  obtain ⟨np, npr, results, opt⟩ := comb
  simp only at hcr hlive hcb hl hu hopt hnpr
  subst hcr hlive hcb hopt hnpr
  simp [step, deliver, parallelEnv, hbeh, hth, hl, hu, hreply, parallel_action,
    hreq, parallel_finish, applyEffs, applyEff, startReq]

/-- Witness for `parallel_absent_option_last_required_success_finalizes`:
the single required requestor succeeds with 7 while optional requestor 1
(with an active cancel handle) is still pending; the optional is cancelled
with the `"Optional."` reason and the caller receives `[7, <empty>]`. -/
theorem parallel_absent_option_last_required_success_finalizes_witness :
    (0 : Nat) < 1
      ∧ step (parallelEnv 1 [replyOkHandle (.num 7), replyOkHandle (.num 5)] none none)
          ⟨⟨2, 1, [none, none], none⟩, true, true, [true, true], [false, false], 2, 0,
            false, [some none, some none], [], [], false⟩ (.reply 0)
        = ⟨⟨1, 0, [some (.num 7), none], none⟩, false, false, [false, true],
            [true, false], 2, 0, false, [some none, some none],
            [(1, make_error "parallel" (some "Optional.") none)],
            [(some (.arr [some (.num 7), none]), none)], false⟩ :=
  ⟨by decide,
    Eq.trans
      (parallel_absent_option_last_required_success_finalizes 1
        [replyOkHandle (.num 7), replyOkHandle (.num 5)] none none
        ⟨⟨2, 1, [none, none], none⟩, true, true, [true, true], [false, false], 2, 0,
          false, [some none, some none], [], [], false⟩
        0 (replyOkHandle (.num 7)) none (.num 7) rfl rfl rfl rfl rfl rfl rfl rfl
        (by decide) rfl rfl)
      rfl⟩

/-- C6 counterexample: the claim says that when the timer fires under the
`false` option with requireds still pending, "the still-pending optional
requestors are cut off at that moment".  In this concrete run (one required,
one optional with an active cancel handle, option `false`, both launched,
timer fires before any completion) nothing is cut off at the timer: no
cancel handle is invoked, the coordinator stays live, both cancel slots stay
active — and the optional later completes and its value 5 still appears in
the reported success array, which the claim's cut-off would have
prevented. -/
theorem parallel_false_option_timer_leaves_optionals_running :
    (parallel_run 1 (some false) [replyOkHandle (.num 7), replyOkHandle (.num 5)]
        none (some 10) none [.start, .start, .timer]).canceledLog = []
      ∧ (parallel_run 1 (some false) [replyOkHandle (.num 7), replyOkHandle (.num 5)]
          none (some 10) none [.start, .start, .timer]).live = true
      ∧ (parallel_run 1 (some false) [replyOkHandle (.num 7), replyOkHandle (.num 5)]
          none (some 10) none [.start, .start, .timer]).slots = [true, true]
      ∧ (parallel_run 1 (some false) [replyOkHandle (.num 7), replyOkHandle (.num 5)]
          none (some 10) none [.start, .start, .timer]).comb.option = none
      ∧ (parallel_run 1 (some false) [replyOkHandle (.num 7), replyOkHandle (.num 5)]
          none (some 10) none [.start, .start, .timer, .reply 1, .reply 0]).calls
          = [(some (.arr [some (.num 7), some (.num 5)]), none)]
      ∧ (parallel_run 1 (some false) [replyOkHandle (.num 7), replyOkHandle (.num 5)]
          none (some 10) none [.start, .start, .timer, .reply 1, .reply 0]).crashed
          = false :=
  ⟨rfl, rfl, rfl, rfl, rfl, rfl⟩

/-- C6 (amended): when the timer fires on a live parallel coordinator whose
option is exactly `false`: if all requireds have already completed, the run
finalizes immediately (cancel everything with the timeout reason, report the
accumulated results as the success); otherwise nothing is cancelled at that
moment — the option is merely cleared to absent and the deadline is no
longer enforced, so pending optionals keep running and may still contribute
results — and the run then finalizes under the absent-option rule: when the
last pending required later succeeds, the remaining optionals are cancelled
with the `"Optional."` reason and the accumulated results are reported, so
the run succeeds iff all requireds succeeded (a required failure takes the
immediately-fatal path instead). -/
theorem parallel_false_option_timer_amended
    (number_required : Nat) (behs : List RBeh) (initial : Option JV)
    (ms : Option Nat) (cfg : Config PState)
    (hcr : cfg.crashed = false) (hlive : cfg.live = true)
    (hcb : cfg.callbackDefined = true)
    (htimer : cfg.timer = true)
    (hopt : cfg.comb.option = some false) :
    (step (parallelEnv number_required behs initial ms) cfg .timer
      = if cfg.comb.number_pending_required_array < 1 then
          { cfg with
              comb := { cfg.comb with option := none }
              timer := false
              live := false
              canceledLog := cfg.canceledLog
                ++ (activeIndices cfg.slots).map
                    (fun i => (i, make_error "parallel" (some "Timeout.") (ms.map JV.num)))
              calls := cfg.calls ++ [(some (JV.arr cfg.comb.results), none)] }
        else
          { cfg with comb := { cfg.comb with option := none }, timer := false })
    ∧ (∀ (k : Nat) (beh : RBeh) (v : Option JV) (s : JV),
        behs[k]? = some beh → beh.throws = none →
        cfg.launchedVals[k]?.getD none = some v →
        cfg.used[k]?.getD true = false →
        beh.reply v = (some s, none) → k < number_required →
        cfg.comb.number_pending_required_array = 1 →
        step (parallelEnv number_required behs initial ms)
            (step (parallelEnv number_required behs initial ms) cfg .timer) (.reply k)
          = { cfg with
                comb := { number_pending := cfg.comb.number_pending - 1
                          number_pending_required_array := 0
                          results := cfg.comb.results.set k (some s)
                          option := none }
                slots := cfg.slots.set k false
                used := cfg.used.set k true
                timer := false
                live := false
                callbackDefined := false
                canceledLog := cfg.canceledLog
                  ++ (activeIndices (cfg.slots.set k false)).map
                      (fun i => (i, make_error "parallel" (some "Optional.") none))
                calls := cfg.calls
                  ++ [(some (JV.arr (cfg.comb.results.set k (some s))), none)] }) := by
  obtain ⟨comb, cb, live, slots, used, cursor, tokens, timer, lv, clog, calls0, crashed⟩ := cfg
  obtain ⟨np, npr, results, opt⟩ := comb
  simp only at hcr hlive hcb htimer hopt
  subst hcr hlive hcb htimer hopt
  constructor
  · by_cases hnpr : npr < 1
    · simp [step, timerFire, parallelEnv, parallel_timeout, hnpr, applyEffs, applyEff]
    · simp [step, timerFire, parallelEnv, parallel_timeout, hnpr, applyEffs, applyEff]
  · intro k beh v s hbeh hth hl hu hreply hreq hnpr
    simp only at hnpr
    subst hnpr
    have h1 : step (parallelEnv number_required behs initial ms)
        ⟨⟨np, 1, results, some false⟩, true, true, slots, used, cursor, tokens, true,
          lv, clog, calls0, false⟩ .timer
        = ⟨⟨np, 1, results, none⟩, true, true, slots, used, cursor, tokens, false,
          lv, clog, calls0, false⟩ := by
      simp [step, timerFire, parallelEnv, parallel_timeout, applyEffs, applyEff]
    rw [h1]
    simp [step, deliver, parallelEnv, hbeh, hth, hl, hu, hreply, parallel_action,
      hreq, parallel_finish, applyEffs, applyEff, startReq]

/-- Witness for `parallel_false_option_timer_amended`: one pending required
and one pending optional under option `false`; the timer merely clears the
option, and the required's later success finalizes the run. -/
theorem parallel_false_option_timer_amended_witness :
    ((⟨⟨2, 1, [none, none], some false⟩, true, true, [true, true], [false, false], 2,
        0, true, [some none, some none], [], [], false⟩ : Config PState).timer = true)
      ∧ step (parallelEnv 1 [replyOkHandle (.num 7), replyOkHandle (.num 5)] none
            (some 10))
          ⟨⟨2, 1, [none, none], some false⟩, true, true, [true, true], [false, false],
            2, 0, true, [some none, some none], [], [], false⟩ .timer
        = ⟨⟨2, 1, [none, none], none⟩, true, true, [true, true], [false, false], 2, 0,
            false, [some none, some none], [], [], false⟩
      ∧ step (parallelEnv 1 [replyOkHandle (.num 7), replyOkHandle (.num 5)] none
            (some 10))
          (step (parallelEnv 1 [replyOkHandle (.num 7), replyOkHandle (.num 5)] none
              (some 10))
            ⟨⟨2, 1, [none, none], some false⟩, true, true, [true, true],
              [false, false], 2, 0, true, [some none, some none], [], [], false⟩
            .timer) (.reply 0)
        = ⟨⟨1, 0, [some (.num 7), none], none⟩, false, false, [false, true],
            [true, false], 2, 0, false, [some none, some none],
            [(1, make_error "parallel" (some "Optional.") none)],
            [(some (.arr [some (.num 7), none]), none)], false⟩ :=
  ⟨rfl,
    Eq.trans
      ((parallel_false_option_timer_amended 1
          [replyOkHandle (.num 7), replyOkHandle (.num 5)] none (some 10)
          ⟨⟨2, 1, [none, none], some false⟩, true, true, [true, true], [false, false],
            2, 0, true, [some none, some none], [], [], false⟩
          rfl rfl rfl rfl rfl).1)
      rfl,
    Eq.trans
      ((parallel_false_option_timer_amended 1
          [replyOkHandle (.num 7), replyOkHandle (.num 5)] none (some 10)
          ⟨⟨2, 1, [none, none], some false⟩, true, true, [true, true], [false, false],
            2, 0, true, [some none, some none], [], [], false⟩
          rfl rfl rfl rfl rfl).2 0 (replyOkHandle (.num 7)) none (.num 7) rfl rfl rfl
        rfl rfl (by decide) rfl)
      rfl⟩

/-- Number of requestors whose completion has been routed. -/
def usedCount {σ : Type} (cfg : Config σ) : Nat := cfg.used.count true

/-- Setting a flag that is currently `false` to `true` increments the count
of `true` flags. -/
lemma count_true_set (l : List Bool) (k : Nat) (h : l.getD k true = false) :
    (l.set k true).count true = l.count true + 1 := by
  induction l generalizing k with
  | nil => simp at h
  | cons b bs ih =>
    cases k with
    | zero =>
      simp at h
      subst h
      simp [List.count_cons]
    | succ k =>
      have h2 : bs.getD k true = false := by simpa using h
      simp [List.count_cons, ih k h2]
      omega

/-- Effects do not touch the scheduling fields of a configuration. -/
lemma applyEff_sched {σ : Type} (name : String) (c : Config σ) (e : Eff) :
    (applyEff name c e).cursor = c.cursor ∧ (applyEff name c e).tokens = c.tokens
      ∧ (applyEff name c e).used = c.used
      ∧ (applyEff name c e).launchedVals = c.launchedVals := by
  cases e <;> simp [applyEff] <;> split_ifs <;> simp

/-- Effect lists do not touch the scheduling fields of a configuration. -/
lemma applyEffs_sched {σ : Type} (name : String) (c : Config σ) (effs : List Eff) :
    (applyEffs name c effs).cursor = c.cursor
      ∧ (applyEffs name c effs).tokens = c.tokens
      ∧ (applyEffs name c effs).used = c.used
      ∧ (applyEffs name c effs).launchedVals = c.launchedVals := by
  induction effs generalizing c with
  | nil => exact ⟨rfl, rfl, rfl, rfl⟩
  | cons e es ih =>
    have h1 := applyEff_sched name c e
    have h2 := ih (applyEff name c e)
    simp only [applyEffs, List.foldl_cons] at *
    exact ⟨h2.1.trans h1.1, h2.2.1.trans h1.2.1, h2.2.2.1.trans h1.2.2.1,
      h2.2.2.2.trans h1.2.2.2⟩

/-- The scheduling invariant of a coordinator over `n` requestors with
effective concurrency budget `m`: list lengths are stable, the launch cursor
never exceeds `n`, launched requestors plus queued launch attempts stay
within the routed completions plus `m`, and indices at or beyond the cursor
are unlaunched and unrouted. -/
def CoreInv {σ : Type} (n m extra : Nat) (c : Config σ) : Prop :=
  c.used.length = n ∧ c.launchedVals.length = n ∧ c.cursor ≤ n
    ∧ c.cursor + c.tokens + extra ≤ usedCount c + m
    ∧ (∀ j, c.cursor ≤ j → j < n → c.used.getD j true = false)
    ∧ (∀ j, c.cursor ≤ j → c.launchedVals.getD j none = none)

lemma coreInv_weaken {σ : Type} {n m : Nat} {c : Config σ}
    (h : CoreInv n m 1 c) : CoreInv n m 0 c :=
  ⟨h.1, h.2.1, h.2.2.1, by have := h.2.2.2.1; omega, h.2.2.2.2.1, h.2.2.2.2.2⟩

lemma startReq_inv {σ : Type} (env : Env σ) (m : Nat) :
    ∀ (fuel : Nat) (c : Config σ) (v : Option JV),
      CoreInv env.behs.length m 1 c →
      CoreInv env.behs.length m 0 (startReq env fuel c v) := by
  intro fuel
  induction fuel with
  | zero => exact fun c v h => coreInv_weaken h
  | succ fuel ih =>
    intro c v h
    obtain ⟨hul, hll, hcn, hbud, hu5, hl6⟩ := h
    rw [startReq]
    split
    · exact coreInv_weaken ⟨hul, hll, hcn, hbud, hu5, hl6⟩
    · split
      · rename_i hlive
        split
        · exact coreInv_weaken ⟨hul, hll, hcn, hbud, hu5, hl6⟩
        · rename_i beh heq
          have hlt : c.cursor < env.behs.length := by
            by_contra hge
            rw [List.get?_eq_getElem?, List.getElem?_eq_none (by omega)] at heq
            cases heq
          have hu0 : c.used.getD c.cursor true = false := hu5 c.cursor le_rfl hlt
          split
          · rename_i exc hth
            dsimp only
            have key : ∀ (c2 : Config σ), c2.cursor = c.cursor + 1 →
                c2.tokens = c.tokens → c2.used = c.used →
                c2.launchedVals = c.launchedVals.set c.cursor (some v) →
                CoreInv env.behs.length m 0
                  (if c2.crashed then c2
                    else startReq env fuel { c2 with used := c2.used.set c.cursor true } v) := by
              intro c2 e1 e2 e3 e4
              split
              · refine ⟨by rw [e3]; exact hul, by rw [e4]; simpa using hll,
                  by rw [e1]; omega, ?_, ?_, ?_⟩
                · simp only [usedCount, e1, e2, e3] at *
                  omega
                · intro j hj hjn
                  rw [e1] at hj
                  rw [e3]
                  exact hu5 j (by omega) hjn
                · intro j hj
                  rw [e1] at hj
                  rw [e4, List.getD_eq_getElem?_getD, List.getElem?_set_ne (by omega),
                    ← List.getD_eq_getElem?_getD]
                  exact hl6 j (by omega)
              · refine ih _ v ⟨by dsimp only; rw [e3]; simpa using hul,
                  by dsimp only; rw [e4]; simpa using hll,
                  by dsimp only; omega, ?_, ?_, ?_⟩
                · dsimp only [usedCount]
                  rw [e3, count_true_set c.used c.cursor hu0]
                  simp only [usedCount] at hbud
                  omega
                · intro j hj hjn
                  dsimp only at hj ⊢
                  rw [e3, List.getD_eq_getElem?_getD, List.getElem?_set_ne (by omega),
                    ← List.getD_eq_getElem?_getD]
                  exact hu5 j (by omega) hjn
                · intro j hj
                  dsimp only at hj ⊢
                  rw [e4, List.getD_eq_getElem?_getD, List.getElem?_set_ne (by omega),
                    ← List.getD_eq_getElem?_getD]
                  exact hl6 j (by omega)
            exact key _ (applyEffs_sched _ _ _).1 (applyEffs_sched _ _ _).2.1
              (applyEffs_sched _ _ _).2.2.1 (applyEffs_sched _ _ _).2.2.2
          · rename_i hth
            dsimp only
            refine ⟨hul, by simpa using hll, by dsimp only; omega, ?_, ?_, ?_⟩
            · dsimp only [usedCount] at *
              omega
            · intro j hj hjn
              dsimp only at hj ⊢
              exact hu5 j (by omega) hjn
            · intro j hj
              dsimp only at hj ⊢
              rw [List.getD_eq_getElem?_getD, List.getElem?_set_ne (by omega),
                ← List.getD_eq_getElem?_getD]
              exact hl6 j (by omega)
      · exact coreInv_weaken ⟨hul, hll, hcn, hbud, hu5, hl6⟩



lemma coreInv_congr {σ : Type} {n m extra : Nat} {c c2 : Config σ}
    (e1 : c2.cursor = c.cursor) (e2 : c2.tokens = c.tokens)
    (e3 : c2.used = c.used) (e4 : c2.launchedVals = c.launchedVals)
    (h : CoreInv n m extra c) : CoreInv n m extra c2 := by
  obtain ⟨hul, hll, hcn, hbud, hu5, hl6⟩ := h
  refine ⟨by rw [e3]; exact hul, by rw [e4]; exact hll, by rw [e1]; exact hcn,
    ?_, ?_, ?_⟩
  · dsimp only [usedCount] at *
    rw [e1, e2, e3]
    exact hbud
  · intro j hj hjn
    rw [e1] at hj
    rw [e3]
    exact hu5 j hj hjn
  · intro j hj
    rw [e1] at hj
    rw [e4]
    exact hl6 j hj

lemma step_inv {σ : Type} (env : Env σ) (m : Nat) (c : Config σ) (e : Ev)
    (h : CoreInv env.behs.length m 0 c) :
    CoreInv env.behs.length m 0 (step env c e) := by
  obtain ⟨hul, hll, hcn, hbud, hu5, hl6⟩ := h
  cases e with
  | start =>
    simp only [step, startEv]
    split
    · exact ⟨hul, hll, hcn, hbud, hu5, hl6⟩
    · rename_i htok
      refine startReq_inv env m _ _ env.initial ⟨hul, hll, hcn, ?_, hu5, hl6⟩
      dsimp only [usedCount] at *
      omega
  | timer =>
    simp only [step, timerFire]
    split
    · exact ⟨hul, hll, hcn, hbud, hu5, hl6⟩
    · split
      · exact coreInv_congr (applyEffs_sched _ _ _).1 (applyEffs_sched _ _ _).2.1
          (applyEffs_sched _ _ _).2.2.1 (applyEffs_sched _ _ _).2.2.2
          ⟨hul, hll, hcn, hbud, hu5, hl6⟩
      · exact ⟨hul, hll, hcn, hbud, hu5, hl6⟩
  | reply k =>
    simp only [step, deliver]
    split
    · exact ⟨hul, hll, hcn, hbud, hu5, hl6⟩
    · split
      · rename_i beh value heqb heqv
        have hklt : k < c.cursor := by
          by_contra hge
          rw [hl6 k (by omega)] at heqv
          cases heqv
        split
        · exact ⟨hul, hll, hcn, hbud, hu5, hl6⟩
        · split
          · rename_i hth hcond
            have hguard : c.used.getD k true = false := by
              have := hcond
              simp only [Bool.and_eq_true, Bool.not_eq_true'] at this
              exact this.2
            have key : ∀ (v2 : Option JV) (c2 : Config σ), c2.cursor = c.cursor →
                c2.tokens = c.tokens → c2.used = c.used →
                c2.launchedVals = c.launchedVals →
                CoreInv env.behs.length m 0
                  (if c2.crashed then c2
                    else startReq env (env.behs.length + 1)
                      { c2 with used := c2.used.set k true } v2) := by
              intro v2 c2 e1 e2 e3 e4
              split
              · exact coreInv_congr e1 e2 e3 e4 ⟨hul, hll, hcn, hbud, hu5, hl6⟩
              · refine startReq_inv env m _ _ v2
                  ⟨by dsimp only; rw [e3]; simpa using hul,
                    by dsimp only; rw [e4]; exact hll,
                    by dsimp only; rw [e1]; exact hcn, ?_, ?_, ?_⟩
                · dsimp only [usedCount]
                  rw [e1, e2, e3, count_true_set c.used k hguard]
                  dsimp only [usedCount] at hbud
                  omega
                · intro j hj hjn
                  dsimp only at hj ⊢
                  rw [e1] at hj
                  rw [e3, List.getD_eq_getElem?_getD, List.getElem?_set_ne (by omega),
                    ← List.getD_eq_getElem?_getD]
                  exact hu5 j hj hjn
                · intro j hj
                  dsimp only at hj ⊢
                  rw [e1] at hj
                  rw [e4]
                  exact hl6 j hj
            exact key _ _ (applyEffs_sched _ _ _).1 (applyEffs_sched _ _ _).2.1
              (applyEffs_sched _ _ _).2.2.1 (applyEffs_sched _ _ _).2.2.2
          · exact ⟨hul, hll, hcn, hbud, hu5, hl6⟩
      · exact ⟨hul, hll, hcn, hbud, hu5, hl6⟩

lemma runSched_inv {σ : Type} (env : Env σ) (m : Nat) :
    ∀ (sched : List Ev) (c : Config σ), CoreInv env.behs.length m 0 c →
      CoreInv env.behs.length m 0 (runSched env sched c) := by
  intro sched
  induction sched with
  | nil => exact fun c h => h
  | cons e es ih =>
    intro c h
    exact ih (step env c e) (step_inv env m c e h)

lemma initConfig_inv {σ : Type} (s0 : σ) (n t : Nat) (ms : Option Nat) :
    CoreInv n (min t n) 0 (initConfig s0 n t ms) := by
  refine ⟨by simp [initConfig], by simp [initConfig], by simp [initConfig], ?_, ?_, ?_⟩
  · dsimp only [initConfig, usedCount]
    simp [List.count_replicate]
  · intro j hj hjn
    dsimp only [initConfig]
    rw [List.getD_eq_getElem?_getD, List.getElem?_replicate_of_lt hjn]
    rfl
  · intro j hj
    dsimp only [initConfig]
    rw [List.getD_eq_getElem?_getD, List.getElem?_replicate]
    split <;> rfl

/-- C8: for every coordinator over `n` requestors with throttle `t` (any
combinator, any behaviours, any event schedule): exactly `min(t, n)` initial
launches are queued by `run`, the launch cursor never exceeds `n`, and the
number of requestors launched but not yet completed (cursor minus routed
completions) never exceeds `min(t, n)` — each later requestor is launched
only through the single launch attempt made when an earlier one
completes. -/
theorem coordinator_throttle_invariant {σ : Type} (env : Env σ) (s0 : σ)
    (t : Nat) (ms : Option Nat) (sched : List Ev) :
    (initConfig s0 env.behs.length t ms).tokens = min t env.behs.length
      ∧ (runSched env sched (initConfig s0 env.behs.length t ms)).cursor
          ≤ env.behs.length
      ∧ (runSched env sched (initConfig s0 env.behs.length t ms)).cursor
          - usedCount (runSched env sched (initConfig s0 env.behs.length t ms))
          ≤ min t env.behs.length := by
  have h := runSched_inv env (min t env.behs.length) sched _
    (initConfig_inv s0 env.behs.length t ms)
  obtain ⟨hul, hll, hcn, hbud, hu5, hl6⟩ := h
  exact ⟨rfl, hcn, by omega⟩

/-- The behaviours of an all-succeeding requestor list for `sequence`:
requestor `i` computes its success value from the value it receives. -/
def seqBehs (fs : List (Option JV → JV)) : List RBeh :=
  fs.map (fun f => ⟨none, false, fun v => (some (f v), none)⟩)

/-- The canonical schedule of a throttle-1 sequence run: the single queued
initial launch, then each requestor's callback in index order. -/
def seqSched (n : Nat) : List Ev :=
  Ev.start :: (List.range n).map Ev.reply

/-- The value each requestor of an all-succeeding sequence receives:
requestor 0 receives the initial value, and requestor `i+1` receives the
success `some (fs[i] v)` that requestor `i` reported from its own input
`v`.  (This is the recurrence the claim states; the theorem proves the
machine's launch log equals it.) -/
def seqInputs (init : Option JV) : List (Option JV → JV) → List (Option JV)
  | [] => []
  | f :: rest => init :: seqInputs (some (f init)) rest

/-- The success value the last requestor of an all-succeeding sequence
reports. -/
def seqOut (init : Option JV) : List (Option JV → JV) → Option JV
  | [] => init
  | f :: rest => seqOut (some (f init)) rest

lemma seqInputs_length (init : Option JV) (fs : List (Option JV → JV)) :
    (seqInputs init fs).length = fs.length := by
  induction fs generalizing init with
  | nil => rfl
  | cons f rest ih => simp [seqInputs, ih]

lemma seqInputs_getD_zero (init : Option JV) (fs : List (Option JV → JV))
    (h : fs ≠ []) : (seqInputs init fs).getD 0 none = init := by
  cases fs with
  | nil => exact absurd rfl h
  | cons f rest => rfl

lemma seqInputs_getD_succ (fs : List (Option JV → JV)) (init : Option JV)
    (k : Nat) (f : Option JV → JV) (hfk : fs[k]? = some f)
    (hk : k + 1 < fs.length) :
    (seqInputs init fs).getD (k + 1) none
      = some (f ((seqInputs init fs).getD k none)) := by
  induction fs generalizing init k with
  | nil => cases hfk
  | cons f0 rest ih =>
    cases k with
    | zero =>
      have hf : f0 = f := by simpa using hfk
      subst hf
      have hr : rest ≠ [] := by
        simp at hk
        intro he
        rw [he] at hk
        simp at hk
      simpa [seqInputs] using seqInputs_getD_zero (some (f0 init)) rest hr
    | succ k =>
      have h1 : rest[k]? = some f := by simpa using hfk
      have h2 : k + 1 < rest.length := by simpa using hk
      simpa [seqInputs] using ih (some (f0 init)) k h1 h2

lemma seqOut_eq (fs : List (Option JV → JV)) (init : Option JV) (k : Nat)
    (f : Option JV → JV) (hlen : fs.length = k + 1) (hfk : fs[k]? = some f) :
    seqOut init fs = some (f ((seqInputs init fs).getD k none)) := by
  induction fs generalizing init k with
  | nil => cases hfk
  | cons f0 rest ih =>
    cases k with
    | zero =>
      have hf : f0 = f := by simpa using hfk
      subst hf
      have hr : rest = [] := by
        have : rest.length = 0 := by simpa using hlen
        simpa using this
      subst hr
      rfl
    | succ k =>
      have h1 : rest[k]? = some f := by simpa using hfk
      have h2 : rest.length = k + 1 := by simpa using hlen
      simpa [seqOut, seqInputs] using ih (some (f0 init)) k h2 h1

/-- Setting index `k` of a mapped range list is pointwise re-mapping. -/
lemma map_range_set {α : Type} (n k : Nat) (g : Nat → α) (x : α) (hk : k < n) :
    ((List.range n).map g).set k x
      = (List.range n).map (fun j => if j = k then x else g j) := by
  apply List.ext_getElem?
  intro i
  by_cases hik : i = k
  · subst hik
    rw [List.getElem?_set_self (by simpa using hk)]
    simp [List.getElem?_range hk]
  · rw [List.getElem?_set_ne (by omega)]
    by_cases hin : i < n
    · simp [List.getElem?_range hin, hik]
    · rw [List.getElem?_eq_none (by simpa using hin),
        List.getElem?_eq_none (by simpa using hin)]



/-- The coordinator configuration of an all-succeeding sequence run just
after requestor `k` was launched: requestors below `k` routed, requestor `k`
outstanding, nothing cancelled, nothing reported. -/
def seqMid (fs : List (Option JV → JV)) (init : Option JV) (k : Nat) :
    Config SState :=
  { comb := ⟨(fs.length : Int) - (k : Int)⟩
    callbackDefined := true
    live := true
    slots := List.replicate fs.length false
    used := (List.range fs.length).map (fun j => decide (j < k))
    cursor := k + 1
    tokens := 0
    timer := false
    launchedVals := (List.range fs.length).map
      (fun j => if j ≤ k then some ((seqInputs init fs).getD j none) else none)
    canceledLog := []
    calls := []
    crashed := false }

/-- The coordinator configuration after an all-succeeding sequence run has
reported its final success. -/
def seqFinal (fs : List (Option JV → JV)) (init : Option JV) : Config SState :=
  { comb := ⟨(fs.length : Int) - (fs.length : Int)⟩
    callbackDefined := false
    live := false
    slots := List.replicate fs.length false
    used := (List.range fs.length).map (fun j => decide (j < fs.length))
    cursor := fs.length
    tokens := 0
    timer := false
    launchedVals := (List.range fs.length).map
      (fun j => if j ≤ fs.length - 1 then some ((seqInputs init fs).getD j none)
        else none)
    canceledLog := []
    calls := [(seqOut init fs, none)]
    crashed := false }

lemma set_replicate_same {α : Type} (n k : Nat) (x : α) :
    (List.replicate n x).set k x = List.replicate n x := by
  apply List.ext_getElem?
  intro i
  by_cases hik : i = k
  · subst hik
    by_cases hin : i < n
    · rw [List.getElem?_set_self (by simpa using hin)]
      simp [List.getElem?_replicate_of_lt hin]
    · rw [List.set_eq_of_length_le (by simpa using hin)]
  · rw [List.getElem?_set_ne (by omega)]

lemma seq_step_mid (fs : List (Option JV → JV)) (init : Option JV) (k : Nat)
    (f : Option JV → JV) (hfk : fs[k]? = some f) (hk1 : k + 1 < fs.length) :
    step (sequenceEnv (seqBehs fs) init none) (seqMid fs init k) (.reply k)
      = seqMid fs init (k + 1) := by
  have hk : k < fs.length := by omega
  obtain ⟨f1, hf1⟩ : ∃ f1, fs[k + 1]? = some f1 :=
    ⟨fs.get ⟨k + 1, hk1⟩, List.getElem?_eq_some_iff.mpr ⟨hk1, rfl⟩⟩
  have hnp : ¬((fs.length : Int) - (k : Int) - 1 < 1) := by omega
  have hsucc := seqInputs_getD_succ fs init k f hfk hk1
  simp only [List.getD_eq_getElem?_getD] at hsucc
  obtain ⟨hklen, hfeq⟩ := List.getElem?_eq_some_iff.mp hfk
  simp [step, deliver, sequenceEnv, seqMid, seqBehs, startReq, sequence_action,
    applyEffs, applyEff, hfk, hf1, List.getElem?_range hk, List.getElem?_range hk1,
    hnp, map_range_set, set_replicate_same, hk, hk1]
  refine ⟨by omega, ?_, ?_⟩
  · intro a ha
    rw [Bool.eq_iff_iff]
    simp
    omega
  · intro a ha
    by_cases h1 : a = k + 1
    · subst h1
      simp [hsucc, hfeq]
    · by_cases h2 : a ≤ k
      · simp [h1, h2, show a ≤ k + 1 by omega]
      · simp [h1, h2, show ¬ a ≤ k + 1 by omega]

lemma activeIndices_replicate_false (n : Nat) :
    activeIndices (List.replicate n false) = [] := by
  rw [activeIndices, List.filter_eq_nil_iff]
  intro i hi
  simp [List.getD_eq_getElem?_getD, List.getElem?_replicate]
  split <;> rfl

lemma seq_step_last (fs : List (Option JV → JV)) (init : Option JV) (k : Nat)
    (f : Option JV → JV) (hfk : fs[k]? = some f) (hlen : fs.length = k + 1) :
    step (sequenceEnv (seqBehs fs) init none) (seqMid fs init k) (.reply k)
      = seqFinal fs init := by
  have hk : k < fs.length := by omega
  have hnp : ((fs.length : Int) - (k : Int) - 1 < 1) := by omega
  have hout := seqOut_eq fs init k f hlen hfk
  simp only [List.getD_eq_getElem?_getD] at hout
  obtain ⟨hklen, hfeq⟩ := List.getElem?_eq_some_iff.mp hfk
  simp [step, deliver, sequenceEnv, seqMid, seqFinal, seqBehs, startReq,
    sequence_action, applyEffs, applyEff, hfk, List.getElem?_range hk, hnp,
    map_range_set, set_replicate_same, hk, activeIndices_replicate_false, hout,
    hfeq, hlen]
  intro a ha
  rw [Bool.eq_iff_iff]
  simp
  omega

lemma seq_step_start (fs : List (Option JV → JV)) (init : Option JV)
    (hne : fs ≠ []) :
    step (sequenceEnv (seqBehs fs) init none)
        (initConfig ⟨(fs.length : Int)⟩ fs.length 1 none) .start
      = seqMid fs init 0 := by
  have hn : 0 < fs.length := List.length_pos.mpr hne
  obtain ⟨f0, hf0⟩ : ∃ f0, fs[0]? = some f0 :=
    ⟨fs.get ⟨0, hn⟩, List.getElem?_eq_some_iff.mpr ⟨hn, rfl⟩⟩
  have hmin : min 1 fs.length = 1 := by omega
  have hz := seqInputs_getD_zero init fs hne
  simp only [List.getD_eq_getElem?_getD] at hz
  simp [step, startEv, initConfig, startReq, sequenceEnv, seqBehs, seqMid, hf0,
    hmin, set_replicate_same]
  apply List.ext_getElem?
  intro i
  by_cases hin : i < fs.length
  · by_cases hi0 : i = 0
    · subst hi0
      rw [List.getElem?_set_self (by simpa using hin)]
      simp [List.getElem?_range hin, hz]
    · rw [List.getElem?_set_ne (by omega)]
      simp [List.getElem?_range hin, List.getElem?_replicate, hin, hi0]
  · rw [List.getElem?_eq_none (by simpa using hin),
      List.getElem?_eq_none (by simp; omega)]

lemma seq_run_aux (fs : List (Option JV → JV)) (init : Option JV) :
    ∀ (m k : Nat), k + m = fs.length → 1 ≤ m →
      runSched (sequenceEnv (seqBehs fs) init none)
          ((List.range' k m).map Ev.reply) (seqMid fs init k)
        = seqFinal fs init := by
  intro m
  induction m with
  | zero => exact fun k h h1 => absurd h1 (by omega)
  | succ m ih =>
    intro k hkm hm
    have hk : k < fs.length := by omega
    obtain ⟨f, hf⟩ : ∃ f, fs[k]? = some f :=
      ⟨fs.get ⟨k, hk⟩, List.getElem?_eq_some_iff.mpr ⟨hk, rfl⟩⟩
    rw [List.range'_succ]
    simp only [List.map_cons, runSched, List.foldl_cons]
    cases Nat.eq_zero_or_pos m with
    | inl h0 =>
      subst h0
      rw [show step (sequenceEnv (seqBehs fs) init none) (seqMid fs init k)
          (Ev.reply k) = seqFinal fs init from
        seq_step_last fs init k f hf (by omega)]
      rfl
    | inr hpos =>
      rw [show step (sequenceEnv (seqBehs fs) init none) (seqMid fs init k)
          (Ev.reply k) = seqMid fs init (k + 1) from
        seq_step_mid fs init k f hf (by omega)]
      exact ih (k + 1) (by omega) hpos

lemma sequence_run_eq_final (fs : List (Option JV → JV)) (init : Option JV)
    (h : fs ≠ []) :
    sequence_run (seqBehs fs) init none (seqSched fs.length)
      = seqFinal fs init := by
  have hn : 0 < fs.length := List.length_pos.mpr h
  have hlen : (seqBehs fs).length = fs.length := by simp [seqBehs]
  unfold sequence_run seqSched
  rw [hlen]
  simp only [runSched, List.foldl_cons]
  rw [show step (sequenceEnv (seqBehs fs) init none)
      (initConfig ⟨(fs.length : Int)⟩ fs.length 1 none) Ev.start
      = seqMid fs init 0 from seq_step_start fs init h]
  rw [List.range_eq_range']
  exact seq_run_aux fs init fs.length 0 (by omega) (by omega)


/-- C2: for a sequence over all-succeeding requestors (each computing its
success from the value it receives), run to completion on the canonical
schedule: no crash occurs, the launch log shows requestor 0 receiving the
initial value and each later requestor receiving exactly the success the
previous one reported (`seqInputs` is that recurrence), and the caller's one
callback carries the final requestor's success value (`seqOut`). -/
theorem sequence_threads_and_reports (fs : List (Option JV → JV))
    (init : Option JV) (h : fs ≠ []) :
    (sequence_run (seqBehs fs) init none (seqSched fs.length)).crashed = false
      ∧ (sequence_run (seqBehs fs) init none (seqSched fs.length)).launchedVals
          = (seqInputs init fs).map some
      ∧ (sequence_run (seqBehs fs) init none (seqSched fs.length)).calls
          = [(seqOut init fs, none)] := by
  have hrun := sequence_run_eq_final fs init h
  have hlen := seqInputs_length init fs
  refine ⟨by rw [hrun]; rfl, ?_, by rw [hrun]; rfl⟩
  rw [hrun]
  show ((List.range fs.length).map
      (fun j => if j ≤ fs.length - 1 then some ((seqInputs init fs).getD j none)
        else none))
    = (seqInputs init fs).map some
  apply List.ext_getElem?
  intro i
  by_cases hin : i < fs.length
  · have hi1 : i ≤ fs.length - 1 := by omega
    obtain ⟨x, hx⟩ : ∃ x, (seqInputs init fs)[i]? = some x :=
      ⟨(seqInputs init fs).get ⟨i, by omega⟩,
        List.getElem?_eq_some_iff.mpr ⟨by omega, rfl⟩⟩
    simp [List.getElem?_range hin, hi1, List.getD_eq_getElem?_getD, hx]
  · rw [List.getElem?_eq_none (by simp; omega), List.getElem?_eq_none (by simp; omega)]

/-- Witness for `sequence_threads_and_reports`: a two-step sequence with
initial value 5, first requestor reporting 10, second incrementing what it
receives — the second receives 10 and the overall success is 11. -/
theorem sequence_threads_and_reports_witness :
    ([(fun _ => JV.num 10), (fun v => match v with
        | some (.num n) => JV.num (n + 1)
        | _ => JV.num 0)] ≠ ([] : List (Option JV → JV)))
      ∧ (sequence_run (seqBehs [(fun _ => JV.num 10), (fun v => match v with
            | some (.num n) => JV.num (n + 1)
            | _ => JV.num 0)]) (some (.num 5)) none (seqSched 2)).launchedVals
          = [some (some (.num 5)), some (some (.num 10))]
      ∧ (sequence_run (seqBehs [(fun _ => JV.num 10), (fun v => match v with
            | some (.num n) => JV.num (n + 1)
            | _ => JV.num 0)]) (some (.num 5)) none (seqSched 2)).calls
          = [(some (.num 11), none)] :=
  ⟨by simp,
    ((sequence_threads_and_reports [(fun _ => JV.num 10), (fun v => match v with
        | some (.num n) => JV.num (n + 1)
        | _ => JV.num 0)] (some (.num 5)) (by simp)).2.1).trans rfl,
    ((sequence_threads_and_reports [(fun _ => JV.num 10), (fun v => match v with
        | some (.num n) => JV.num (n + 1)
        | _ => JV.num 0)] (some (.num 5)) (by simp)).2.2).trans rfl⟩

lemma startReq_dead {σ : Type} (env : Env σ) (fuel : Nat) (c : Config σ)
    (v : Option JV) (h : c.live = false) : startReq env fuel c v = c := by
  cases fuel with
  | zero => rfl
  | succ fuel =>
    rw [startReq]
    simp [h]

lemma set_getD_same {α : Type} (l : List α) (k : Nat) (x : α)
    (h : l.getD k x = x) : l.set k x = l := by
  apply List.ext_getElem?
  intro i
  by_cases hik : i = k
  · subst hik
    by_cases hin : i < l.length
    · rw [List.getElem?_set_self (by simpa using hin)]
      rw [List.getD_eq_getElem?_getD] at h
      obtain ⟨y, hy⟩ : ∃ y, l[i]? = some y :=
        ⟨l.get ⟨i, hin⟩, List.getElem?_eq_some_iff.mpr ⟨hin, rfl⟩⟩
      rw [hy]
      rw [hy] at h
      simp at h
      rw [h]
    · rw [List.set_eq_of_length_le (by simpa using hin)]
  · rw [List.getElem?_set_ne (by omega)]

lemma startReq_set_congr {σ : Type} (env : Env σ) (k : Nat) (b : RBeh)
    (v : Option JV) :
    ∀ (fuel1 fuel2 : Nat) (c : Config σ), k < c.cursor →
      env.behs.length ≤ c.cursor + fuel1 → env.behs.length ≤ c.cursor + fuel2 →
      startReq env fuel1 c v
        = startReq { env with behs := env.behs.set k b } fuel2 c v := by
  intro fuel1
  induction fuel1 with
  | zero =>
    intro fuel2 c hk h1 h2
    have hnone2 : (env.behs.set k b).get? c.cursor = none := by
      rw [List.get?_eq_getElem?]
      exact List.getElem?_eq_none (by simpa using (by omega : env.behs.length ≤ c.cursor))
    cases fuel2 with
    | zero => rfl
    | succ fuel2 =>
      show c = _
      rw [startReq]
      dsimp only
      rw [hnone2]
      split <;> first | rfl | (split <;> rfl)
  | succ fuel1 ih =>
    intro fuel2 c hk h1 h2
    by_cases hcur : env.behs.length ≤ c.cursor
    · have hnone : env.behs.get? c.cursor = none := by
        rw [List.get?_eq_getElem?]
        exact List.getElem?_eq_none hcur
      have hnone2 : (env.behs.set k b).get? c.cursor = none := by
        rw [List.get?_eq_getElem?]
        exact List.getElem?_eq_none (by simpa using hcur)
      cases fuel2 with
      | zero =>
        show _ = c
        rw [startReq]
        dsimp only
        rw [hnone]
        split <;> first | rfl | (split <;> rfl)
      | succ fuel2 =>
        rw [startReq, startReq]
        dsimp only
        rw [hnone, hnone2]
    · have hlt : c.cursor < env.behs.length := by omega
      obtain ⟨beh, hbg⟩ : ∃ beh, env.behs.get? c.cursor = some beh := by
        rw [List.get?_eq_getElem?]
        exact ⟨env.behs.get ⟨c.cursor, hlt⟩,
          List.getElem?_eq_some_iff.mpr ⟨hlt, rfl⟩⟩
      have hget : (env.behs.set k b).get? c.cursor = some beh := by
        rw [List.get?_eq_getElem?, List.getElem?_set_ne (by omega),
          ← List.get?_eq_getElem?]
        exact hbg
      cases fuel2 with
      | zero => omega
      | succ fuel2 =>
        rw [startReq, startReq]
        dsimp only
        rw [hbg, hget]
        by_cases hcrash : c.crashed
        · simp [hcrash]
        · by_cases hlv : c.live
          · simp only [hcrash, hlv, Bool.false_eq_true, if_false, if_true]
            cases hbt : beh.throws with
            | none => rfl
            | some exc =>
              dsimp only
              have key : ∀ (c2 : Config σ), c2.cursor = c.cursor + 1 →
                  (if c2.crashed then c2
                    else startReq env fuel1
                      { c2 with used := c2.used.set c.cursor true } v)
                    = (if c2.crashed then c2
                      else startReq { env with behs := env.behs.set k b } fuel2
                        { c2 with used := c2.used.set c.cursor true } v) := by
                intro c2 e1
                split
                · rfl
                · exact ih fuel2 _ (by dsimp only; omega) (by dsimp only; omega)
                    (by dsimp only; omega)
              exact key _ (applyEffs_sched _ _ _).1
          · simp [hlv]



/-- C9: when the requestor at the cursor raises `e` synchronously instead of
using its callback, the launch attempt behaves exactly as if an ordinary
requestor (returning no cancel handle) had been launched there and had
immediately reported `e` as a failure through its callback: the action is
called with `(undefined, e, index)` and the next pending launch is attempted
at once, yielding the identical coordinator configuration.  The launch value
side-condition `hv` holds in every real run: non-sequence coordinators pass
the initial value to every launch, and a sequence coordinator either passes
the previous `undefined` success after a failure or has been cancelled by
its action. -/
theorem requestor_throw_synthesizes_failure
    {σ : Type} (env : Env σ) (cfg : Config σ) (k : Nat) (beh : RBeh) (e : JV)
    (v : Option JV)
    (hcr : cfg.crashed = false) (hlive : cfg.live = true)
    (hk : k = cfg.cursor)
    (hbeh : env.behs[k]? = some beh) (hth : beh.throws = some e)
    (hll : cfg.launchedVals.length = env.behs.length)
    (hu : cfg.used[k]?.getD true = false)
    (hs : cfg.slots[k]?.getD false = false)
    (hv : v = (if env.name = "sequence" then none else env.initial)
        ∨ (applyEffs env.name
            { cfg with
                cursor := k + 1
                launchedVals := cfg.launchedVals.set k (some v)
                comb := (env.action cfg.comb cfg.callbackDefined none (some e) k).1 }
            (env.action cfg.comb cfg.callbackDefined none (some e) k).2).live
            = false) :
    startReq env (env.behs.length + 1) cfg v
      = deliver { env with behs := env.behs.set k (replyFail e) } k
          (startReq { env with behs := env.behs.set k (replyFail e) }
            (env.behs.length + 1) cfg v) := by
  subst hk
  have hklen : cfg.cursor < env.behs.length := by
    rcases List.getElem?_eq_some_iff.mp hbeh with ⟨h, _⟩
    exact h
  have hbg : env.behs.get? cfg.cursor = some beh := by
    rw [List.get?_eq_getElem?]
    exact hbeh
  have hget2 : (env.behs.set cfg.cursor (replyFail e)).get? cfg.cursor
      = some (replyFail e) := by
    rw [List.get?_eq_getElem?]
    exact List.getElem?_set_self (by simpa using hklen)
  have hset : cfg.slots.set cfg.cursor false = cfg.slots :=
    set_getD_same _ _ _ (by rw [List.getD_eq_getElem?_getD]; exact hs)
  have hlvget : (cfg.launchedVals.set cfg.cursor (some v)).getD cfg.cursor none
      = some v := by
    rw [List.getD_eq_getElem?_getD, List.getElem?_set_self (by rw [hll]; exact hklen)]
    rfl
  have hrc1 : (replyFail e).hasCancel = false := rfl
  have hrc2 : (replyFail e).throws = none := rfl
  have hrc3 : (replyFail e).reply v = (none, some e) := rfl
  rw [hcr, hlive] at hv
  conv_lhs => rw [startReq]
  conv_rhs => rw [startReq]
  simp only [hcr, hlive, Bool.false_eq_true, if_false, if_true, hbg, hget2, hth,
    hrc1, hrc2]
  have hu2 : cfg.used.getD cfg.cursor true = false := by
    rw [List.getD_eq_getElem?_getD]
    exact hu
  rw [hset]
  rw [deliver]
  simp only [hcr, hlive, Bool.false_eq_true, if_false, if_true, hget2, hlvget, hu2,
    hrc2, hrc3, List.length_set, Bool.not_false, Bool.true_and, Bool.and_self]
  rw [hset]
  have key : ∀ (c2 : Config σ), c2.cursor = cfg.cursor + 1 →
      (v = (if env.name = "sequence" then none else env.initial) ∨ c2.live = false) →
      (if c2.crashed = true then c2
        else startReq env env.behs.length
          { c2 with used := c2.used.set cfg.cursor true } v)
        = (if c2.crashed = true then c2
          else startReq { env with behs := env.behs.set cfg.cursor (replyFail e) }
            (env.behs.length + 1)
            { c2 with used := c2.used.set cfg.cursor true }
            (if env.name = "sequence" then none else env.initial)) := by
    intro c2 e1 hv2
    split
    · rfl
    · rcases hv2 with hveq | hdead
      · rw [hveq]
        exact startReq_set_congr env cfg.cursor (replyFail e) _ env.behs.length
          (env.behs.length + 1) _ (by dsimp only; omega) (by dsimp only; omega)
          (by dsimp only; omega)
      · rw [startReq_dead env _ _ _ (by dsimp only; exact hdead),
          startReq_dead _ _ _ _ (by dsimp only; exact hdead)]
  exact key _ (applyEffs_sched _ _ _).1 hv


/-- Witness for `requestor_throw_synthesizes_failure`: a fresh two-requestor
fallback coordinator whose first requestor raises 8 at launch. -/
theorem requestor_throw_synthesizes_failure_witness :
    ((initConfig (⟨2⟩ : FState) 2 1 none).live = true)
      ∧ startReq
          (fallbackEnv [⟨some (.num 8), false, fun _ => (none, none)⟩,
            replyOk (.num 3)] none none)
          ((fallbackEnv [⟨some (.num 8), false, fun _ => (none, none)⟩,
            replyOk (.num 3)] none none).behs.length + 1)
          (initConfig (⟨2⟩ : FState) 2 1 none) none
        = deliver
            { fallbackEnv [⟨some (.num 8), false, fun _ => (none, none)⟩,
                replyOk (.num 3)] none none with
              behs := (fallbackEnv [⟨some (.num 8), false, fun _ => (none, none)⟩,
                replyOk (.num 3)] none none).behs.set 0 (replyFail (.num 8)) } 0
            (startReq
              { fallbackEnv [⟨some (.num 8), false, fun _ => (none, none)⟩,
                  replyOk (.num 3)] none none with
                behs := (fallbackEnv [⟨some (.num 8), false, fun _ => (none, none)⟩,
                  replyOk (.num 3)] none none).behs.set 0 (replyFail (.num 8)) }
              ((fallbackEnv [⟨some (.num 8), false, fun _ => (none, none)⟩,
                replyOk (.num 3)] none none).behs.length + 1)
              (initConfig (⟨2⟩ : FState) 2 1 none) none) :=
  ⟨rfl,
    requestor_throw_synthesizes_failure
      (fallbackEnv [⟨some (.num 8), false, fun _ => (none, none)⟩,
        replyOk (.num 3)] none none)
      (initConfig (⟨2⟩ : FState) 2 1 none) 0
      ⟨some (.num 8), false, fun _ => (none, none)⟩ (.num 8) none
      rfl rfl rfl rfl rfl rfl rfl rfl (Or.inl (by simp [fallbackEnv]))⟩

end Parseq
